import Mathlib

/-!
# Flux: `static/js/script.js`

A shallow embedding of the page script of Flux (modal toggles, the roast
fetcher and the expense-chart initialiser) together with the properties of
its behaviour.

The page is a list of elements in document order.  An element reference held
by the script is the position of the element in that list.  Every call the
script makes on the page, the network, the console or the charting library
both updates the state and appends an entry to an effect log, so that the
order of effects can be read back.

The page is kept flat: the nesting of elements is not represented, and the
`innerText` of an element is the text last assigned to it.  The network and
the charting library are outside the script: the way the request settles is an
argument of `getRoast`, and constructing a chart is recorded as an effect.
-/

namespace Flux

/-! ## Data model -/

/-- A thrown JavaScript exception: its constructor name and message. -/
structure JsError where
  name : String
  message : String
deriving DecidableEq

/-- The drawing surface of a canvas element: pixel size and the part of the 2D
context state that `initChart` writes. -/
structure Canvas where
  width : Nat
  height : Nat
  font : String
  fillStyle : String
  textAlign : String
deriving DecidableEq

/-- A page element.  `classList` is the ordered token list of the `class`
attribute; `canvas` is `none` for anything that is not a canvas element. -/
structure Element where
  id : String
  classList : List String
  innerText : String
  canvas : Option Canvas
deriving DecidableEq

/-- Legend label options of the chart configuration. -/
structure LegendLabels where
  color : String
  fontSize : Nat
  fontFamily : String
  usePointStyle : Bool
  boxWidth : Nat
deriving DecidableEq

/-- Options block of the chart configuration. -/
structure ChartOptions where
  responsive : Bool
  maintainAspectRatio : Bool
  cutout : String
  legendPosition : String
  legendLabels : LegendLabels
  animateScale : Bool
  animateRotate : Bool
deriving DecidableEq

/-- One series of the chart configuration. -/
structure Dataset where
  data : List ℚ
  backgroundColor : List String
  borderWidth : Nat
  hoverOffset : Nat
deriving DecidableEq

/-- The configuration object handed to `new Chart(ctx, config)`. -/
structure ChartConfig where
  type : String
  labels : List String
  datasets : List Dataset
  options : ChartOptions
deriving DecidableEq

/-- One observable effect of the script. -/
inductive Effect where
  | classListToggle (el : Nat) (token : String)
  | classListAdd (el : Nat) (token : String)
  | classListRemove (el : Nat) (token : String)
  | setInnerText (el : Nat) (text : String)
  | fetch (url : String)
  | consoleError (label : String) (error : JsError)
  | newChart (el : Nat) (config : ChartConfig)
  | fillText (el : Nat) (text : String) (x y : ℚ) (font fillStyle textAlign : String)
deriving DecidableEq

/-- The state the script runs in: the page and the log of effects so far. -/
structure World where
  page : List Element
  log : List Effect
deriving DecidableEq

/-! ## Page primitives -/

/-- Position of the first element of the list with the given id. -/
def findById (id : String) : List Element → Option Nat
  | [] => none
  | e :: es => if e.id = id then some 0 else (findById id es).map (· + 1)

/-- `document.getElementById(id)`. -/
def getElementById (w : World) (id : String) : Option Nat :=
  findById id w.page

/-- Apply `f` to the element at position `i`. -/
def updateAt (f : Element → Element) : Nat → List Element → List Element
  | _, [] => []
  | 0, e :: es => f e :: es
  | i + 1, e :: es => e :: updateAt f i es

/-- `DOMTokenList.toggle(token)` on a token list. -/
def tokensToggle (token : String) (ts : List String) : List String :=
  if token ∈ ts then ts.filter (· ≠ token) else ts ++ [token]

/-- `DOMTokenList.add(token)` on a token list. -/
def tokensAdd (token : String) (ts : List String) : List String :=
  if token ∈ ts then ts else ts ++ [token]

/-- `DOMTokenList.remove(token)` on a token list. -/
def tokensRemove (token : String) (ts : List String) : List String :=
  ts.filter (· ≠ token)

/-- `el.classList.toggle(token)`. -/
def classListToggle (w : World) (el : Nat) (token : String) : World :=
  { page := updateAt (fun e => { e with classList := tokensToggle token e.classList }) el w.page
    log := w.log ++ [Effect.classListToggle el token] }

/-- `el.classList.add(token)`. -/
def classListAdd (w : World) (el : Nat) (token : String) : World :=
  { page := updateAt (fun e => { e with classList := tokensAdd token e.classList }) el w.page
    log := w.log ++ [Effect.classListAdd el token] }

/-- `el.classList.remove(token)`. -/
def classListRemove (w : World) (el : Nat) (token : String) : World :=
  { page := updateAt (fun e => { e with classList := tokensRemove token e.classList }) el w.page
    log := w.log ++ [Effect.classListRemove el token] }

/-- `el.innerText = text`. -/
def setInnerText (w : World) (el : Nat) (text : String) : World :=
  { page := updateAt (fun e => { e with innerText := text }) el w.page
    log := w.log ++ [Effect.setInnerText el text] }

/-! ## 1. Modal toggle functions -/

/-- `toggleModal()`. -/
def toggleModal (w : World) : World :=
  match getElementById w "transactionModal" with
  | some el => classListToggle w el "hidden"
  | none => w

/-- `toggleGoalModal()`. -/
def toggleGoalModal (w : World) : World :=
  match getElementById w "goalModal" with
  | some el => classListToggle w el "hidden"
  | none => w

/-- `toggleSubModal()`. -/
def toggleSubModal (w : World) : World :=
  match getElementById w "subModal" with
  | some el => classListToggle w el "hidden"
  | none => w

/-- `closeRoast()`. -/
def closeRoast (w : World) : World :=
  match getElementById w "roastModal" with
  | some el => classListAdd w el "hidden"
  | none => w

/-! ## 2. AI roast function -/

mutual
/-- A JavaScript value as produced by parsing a JSON body, plus `undefined`
(the result of reading a missing property).  A number is carried as the string
that `ToString` yields for it, which is all the script observes of it. -/
inductive JsValue where
  | undefined
  | null
  | bool (b : Bool)
  | num (shown : String)
  | str (s : String)
  | arr (items : JsItems)
  | obj (fields : JsFields)
/-- The elements of an array value. -/
inductive JsItems where
  | nil
  | cons (head : JsValue) (tail : JsItems)
/-- The own properties of an object value. -/
inductive JsFields where
  | nil
  | cons (key : String) (value : JsValue) (tail : JsFields)
end

/-- Own property lookup on an object value. -/
def JsFields.get (k : String) : JsFields → Option JsValue
  | .nil => none
  | .cons key value tail => if key = k then some value else tail.get k

/-- How an awaited promise ends: with a value, with a thrown reason, or never. -/
inductive Settled (α : Type) where
  | fulfilled (value : α)
  | rejected (reason : JsError)
  | pending

/-- The response `fetch` resolves with: its status code and what
`response.json()` settles to (the parse of its body). -/
structure Response where
  status : Nat
  json : Settled JsValue

/-- The result of running an asynchronous function to the end of the run: the
world it leaves and how its promise ended. -/
structure Run where
  world : World
  completion : Settled Unit

/-- The property read `data.roast`. -/
def getRoastField : JsValue → Except JsError JsValue
  | .undefined => .error ⟨"TypeError", "Cannot read properties of undefined (reading roast)"⟩
  | .null => .error ⟨"TypeError", "Cannot read properties of null (reading roast)"⟩
  | .obj fields =>
    match fields.get "roast" with
    | some v => .ok v
    | none => .ok .undefined
  | _ => .ok .undefined

/-- One step of `Array.prototype.join`: the text of the head element, the
remaining elements and the joined text of the remaining elements. -/
def joinStep (s : Except JsError String) (rest : JsItems) (r : Except JsError String) :
    Except JsError String :=
  match s, rest, r with
  | .error e, _, _ => .error e
  | .ok s, .nil, _ => .ok s
  | .ok _, .cons _ _, .error e => .error e
  | .ok s, .cons _ _, .ok r => .ok (s ++ "," ++ r)

mutual
/-- The conversion `ToString` applied by a template literal to an interpolated
value.  An object with an own `toString` property (never callable in parsed
JSON) cannot be converted. -/
def toStringJs : JsValue → Except JsError String
  | .undefined => .ok "undefined"
  | .null => .ok "null"
  | .bool b => .ok (if b then "true" else "false")
  | .num shown => .ok shown
  | .str s => .ok s
  | .arr items => joinItems items
  | .obj fields =>
    match fields.get "toString" with
    | some _ => .error ⟨"TypeError", "Cannot convert object to primitive value"⟩
    | none => .ok "[object Object]"
/-- The text of an array: its elements joined by commas, `null` and `undefined`
elements giving the empty text. -/
def joinItems : JsItems → Except JsError String
  | .nil => .ok ""
  | .cons .undefined rest => joinStep (.ok "") rest (joinItems rest)
  | .cons .null rest => joinStep (.ok "") rest (joinItems rest)
  | .cons v rest => joinStep (toStringJs v) rest (joinItems rest)
end

/-- The template literal wrapping `data.roast` in double quotes. -/
def roastLiteral (data : JsValue) : Except JsError String :=
  match getRoastField data with
  | .error e => .error e
  | .ok v =>
    match toStringJs v with
    | .error e => .error e
    | .ok s => .ok ("\"" ++ s ++ "\"")

/-- The call `fetch(url)`: the request is issued. -/
def fetch (w : World) (url : String) : World :=
  { w with log := w.log ++ [Effect.fetch url] }

/-- The call `console.error(label, error)`. -/
def consoleError (w : World) (label : String) (error : JsError) : World :=
  { w with log := w.log ++ [Effect.consoleError label error] }

/-- The loading placeholder. -/
def loadingText : String := "Consulting the Council of High Finance..."

/-- The fallback sentence. -/
def fallbackText : String := "Even the AI is speechless at your spending."

/-- The `try` block of `getRoast`, given the captured `text` reference and the
way the request settles. -/
def getRoastTry (net : Settled Response) (text : Option Nat) (w : World) : Run :=
  let w := fetch w "/roast_me"
  match net with
  | .pending => ⟨w, .pending⟩
  | .rejected e => ⟨w, .rejected e⟩
  | .fulfilled response =>
    match response.json with
    | .pending => ⟨w, .pending⟩
    | .rejected e => ⟨w, .rejected e⟩
    | .fulfilled data =>
      match text with
      | none => ⟨w, .fulfilled ()⟩
      | some el =>
        match roastLiteral data with
        | .error e => ⟨w, .rejected e⟩
        | .ok s => ⟨setInnerText w el s, .fulfilled ()⟩

/-- `getRoast()`, given the way the request to the endpoint settles. -/
def getRoast (net : Settled Response) (w : World) : Run :=
  let modal := getElementById w "roastModal"
  let text := getElementById w "roastText"
  let w := match modal with
    | some el => classListRemove w el "hidden"
    | none => w
  let w := match text with
    | some el => setInnerText w el loadingText
    | none => w
  match getRoastTry net text w with
  | ⟨w, .rejected error⟩ =>
    let w := consoleError w "Roast Error:" error
    match text with
    | some el => ⟨setInnerText w el fallbackText, .fulfilled ()⟩
    | none => ⟨w, .fulfilled ()⟩
  | r => r

/-! ## 3. Chart initialization -/

/-- The canvas record of the element at position `el`, if it is a canvas. -/
def canvasOf (w : World) (el : Nat) : Option Canvas :=
  match w.page[el]? with
  | some e => e.canvas
  | none => none

/-- `el.getContext("2d")`: the drawing context of a canvas, referred to by the
position of its canvas; a `TypeError` on an element that is not a canvas. -/
def getContext (w : World) (el : Nat) : Except JsError Nat :=
  match canvasOf w el with
  | some _ => .ok el
  | none => .error ⟨"TypeError", "chartCanvas.getContext is not a function"⟩

/-- Write to the context state of the canvas at position `ctx`. -/
def setCtx (f : Canvas → Canvas) (w : World) (ctx : Nat) : World :=
  { w with page := updateAt (fun e => { e with canvas := e.canvas.map f }) ctx w.page }

/-- `ctx.canvas.width`. -/
def canvasWidth (w : World) (ctx : Nat) : ℚ :=
  match canvasOf w ctx with
  | some c => c.width
  | none => 0

/-- `ctx.canvas.height`. -/
def canvasHeight (w : World) (ctx : Nat) : ℚ :=
  match canvasOf w ctx with
  | some c => c.height
  | none => 0

/-- `ctx.fillText(text, x, y)`: a text draw in the current context state. -/
def fillText (w : World) (ctx : Nat) (text : String) (x y : ℚ) : World :=
  match canvasOf w ctx with
  | some c =>
    { w with log := w.log ++ [Effect.fillText ctx text x y c.font c.fillStyle c.textAlign] }
  | none => w

/-- `new Chart(ctx, config)`: a chart object is constructed on the canvas. -/
def newChart (w : World) (ctx : Nat) (config : ChartConfig) : World :=
  { w with log := w.log ++ [Effect.newChart ctx config] }

/-- The fixed palette. -/
def palette : List String :=
  [ "#06b6d4", -- Cyan
    "#8b5cf6", -- Violet
    "#ec4899", -- Pink
    "#f59e0b", -- Amber
    "#10b981", -- Emerald
    "#3b82f6" ] -- Blue

/-- The configuration object literal of `initChart`. -/
def chartConfig (labels : List String) (data : List ℚ) : ChartConfig :=
  { type := "doughnut"
    labels := labels
    datasets :=
      [ { data := data
          backgroundColor := palette
          borderWidth := 0
          hoverOffset := 15 } ]
    options :=
      { responsive := true
        maintainAspectRatio := false
        cutout := "75%"
        legendPosition := "bottom"
        legendLabels :=
          { color := "#94a3b8"
            fontSize := 10
            fontFamily := "Outfit"
            usePointStyle := true
            boxWidth := 8 }
        animateScale := true
        animateRotate := true } }

/-- The test `labels && labels.length > 0`. -/
def labelsGiven : Option (List String) → Bool
  | some ls => decide (ls.length > 0)
  | none => false

/-- `initChart(labels, data)`; `labels` is `none` when absent. -/
def initChart (labels : Option (List String)) (data : List ℚ) (w : World) :
    Except JsError World :=
  match getElementById w "expenseChart" with
  | none => .ok w
  | some chartCanvas =>
    match getContext w chartCanvas with
    | .error e => .error e
    | .ok ctx =>
      if labelsGiven labels then
        .ok (newChart w ctx (chartConfig (labels.getD []) data))
      else
        let w := setCtx (fun c => { c with font := "14px Outfit" }) w ctx
        let w := setCtx (fun c => { c with fillStyle := "#64748b" }) w ctx
        let w := setCtx (fun c => { c with textAlign := "center" }) w ctx
        .ok (fillText w ctx "No expenses logged" (canvasWidth w ctx / 2) (canvasHeight w ctx / 2))

/-- Modelled from the spec: the charting library (not part of the repository)
assigns the colours of a series to its segments cyclically, in order. -/
def segmentColour (config : ChartConfig) (i : Nat) : Option String :=
  match config.datasets with
  | [] => none
  | d :: _ => d.backgroundColor[i % d.backgroundColor.length]?

/-! ## Observations -/

/-- Whether the element at position `el` carries the class token. -/
def hasClass (w : World) (el : Nat) (token : String) : Bool :=
  match w.page[el]? with
  | some e => decide (token ∈ e.classList)
  | none => false

/-- The hidden marker of the dialog with the given id: `none` when the page has
no such element, otherwise whether its class list contains `hidden`. -/
def hiddenMarker (w : World) (id : String) : Option Bool :=
  (getElementById w id).map (fun el => hasClass w el "hidden")

/-- The text shown by the element at position `el`. -/
def displayedText (w : World) (el : Nat) : Option String :=
  w.page[el]?.map (·.innerText)

/-- The chart objects constructed according to a log. -/
def chartsIn : List Effect → List ChartConfig
  | [] => []
  | Effect.newChart _ config :: rest => config :: chartsIn rest
  | _ :: rest => chartsIn rest

/-- The text draws recorded in a log. -/
def drawsIn : List Effect → List Effect
  | [] => []
  | Effect.fillText el text x y font fillStyle textAlign :: rest =>
    Effect.fillText el text x y font fillStyle textAlign :: drawsIn rest
  | _ :: rest => drawsIn rest

/-- The urls requested according to a log. -/
def requestsIn : List Effect → List String
  | [] => []
  | Effect.fetch url :: rest => url :: requestsIn rest
  | _ :: rest => requestsIn rest

/-! ## Examples -/

/-- A page with the four dialogs, the roast message area and the chart canvas. -/
def samplePage : List Element :=
  [ ⟨"transactionModal", ["modal", "hidden"], "", none⟩,
    ⟨"goalModal", ["modal", "hidden"], "", none⟩,
    ⟨"subModal", ["modal"], "", none⟩,
    ⟨"roastModal", ["modal", "hidden"], "", none⟩,
    ⟨"roastText", [], "", none⟩,
    ⟨"expenseChart", [], "", some ⟨300, 150, "10px sans-serif", "#000000", "start"⟩⟩ ]

/-- The sample page with an empty log. -/
def sampleWorld : World := ⟨samplePage, []⟩

/-- A page without any of the elements the script looks up. -/
def bareWorld : World := ⟨[⟨"header", ["top"], "Flux", none⟩], []⟩

/-! ## Lemmas on the page primitives -/

theorem findById_lt {id : String} {l : List Element} {i : Nat}
    (h : findById id l = some i) : i < l.length := by
  induction l generalizing i with
  | nil => simp [findById] at h
  | cons e es ih =>
    unfold findById at h
    split at h
    · simp only [Option.some.injEq] at h
      subst h
      simp
    · cases hf : findById id es with
      | none => simp [hf] at h
      | some j =>
        simp only [hf, Option.map_some', Option.some.injEq] at h
        subst h
        simpa using ih hf

theorem length_updateAt (f : Element → Element) (i : Nat) (l : List Element) :
    (updateAt f i l).length = l.length := by
  induction l generalizing i with
  | nil => cases i <;> rfl
  | cons e es ih =>
    cases i with
    | zero => rfl
    | succ i => simp [updateAt, ih]

theorem getElem?_updateAt_self (f : Element → Element) (i : Nat) (l : List Element) :
    (updateAt f i l)[i]? = l[i]?.map f := by
  induction l generalizing i with
  | nil => cases i <;> rfl
  | cons e es ih =>
    cases i with
    | zero => simp [updateAt]
    | succ i => simpa [updateAt] using ih i

theorem getElem?_updateAt_ne (f : Element → Element) {i j : Nat} (h : j ≠ i)
    (l : List Element) : (updateAt f i l)[j]? = l[j]? := by
  induction l generalizing i j with
  | nil => cases i <;> rfl
  | cons e es ih =>
    cases i with
    | zero =>
      cases j with
      | zero => exact absurd rfl h
      | succ j => simp [updateAt]
    | succ i =>
      cases j with
      | zero => simp [updateAt]
      | succ j =>
        have hji : j ≠ i := fun hh => h (by rw [hh])
        simpa [updateAt] using ih hji

theorem findById_updateAt (f : Element → Element) (hf : ∀ e, (f e).id = e.id)
    (id : String) (i : Nat) (l : List Element) :
    findById id (updateAt f i l) = findById id l := by
  induction l generalizing i with
  | nil => cases i <;> rfl
  | cons e es ih =>
    cases i with
    | zero => simp [updateAt, findById, hf]
    | succ i => simp [updateAt, findById, ih]

theorem updateAt_id_of_fix (f : Element → Element) (i : Nat) (l : List Element)
    (h : ∀ e, l[i]? = some e → f e = e) : updateAt f i l = l := by
  induction l generalizing i with
  | nil => cases i <;> rfl
  | cons e es ih =>
    cases i with
    | zero => simp [updateAt, h e (by simp)]
    | succ i =>
      simp only [updateAt, List.cons.injEq, true_and]
      exact ih i (fun e he => h e (by simpa using he))

/-! ## Lemmas on class token lists -/

theorem mem_tokensToggle (t : String) (ts : List String) :
    t ∈ tokensToggle t ts ↔ t ∉ ts := by
  unfold tokensToggle
  split <;> simp_all

theorem mem_tokensAdd (t : String) (ts : List String) : t ∈ tokensAdd t ts := by
  unfold tokensAdd
  split <;> simp_all

theorem tokensAdd_of_mem {t : String} {ts : List String} (h : t ∈ ts) :
    tokensAdd t ts = ts := by
  simp [tokensAdd, h]

theorem not_mem_tokensRemove (t : String) (ts : List String) : t ∉ tokensRemove t ts := by
  simp [tokensRemove]

/-! ## World-level lemmas -/

theorem getElementById_classListToggle (w : World) (el : Nat) (t id : String) :
    getElementById (classListToggle w el t) id = getElementById w id := by
  unfold getElementById classListToggle
  exact findById_updateAt _ (by intro e; rfl) id el w.page

theorem getElementById_classListAdd (w : World) (el : Nat) (t id : String) :
    getElementById (classListAdd w el t) id = getElementById w id := by
  unfold getElementById classListAdd
  exact findById_updateAt _ (by intro e; rfl) id el w.page

theorem getElementById_classListRemove (w : World) (el : Nat) (t id : String) :
    getElementById (classListRemove w el t) id = getElementById w id := by
  unfold getElementById classListRemove
  exact findById_updateAt _ (by intro e; rfl) id el w.page

theorem getElementById_setInnerText (w : World) (el : Nat) (s id : String) :
    getElementById (setInnerText w el s) id = getElementById w id := by
  unfold getElementById setInnerText
  exact findById_updateAt _ (by intro e; rfl) id el w.page

theorem getElementById_lt {w : World} {id : String} {el : Nat}
    (h : getElementById w id = some el) : el < w.page.length :=
  findById_lt h

theorem hasClass_classListToggle (w : World) (el : Nat) (t : String)
    (h : el < w.page.length) :
    hasClass (classListToggle w el t) el t = !hasClass w el t := by
  unfold hasClass classListToggle
  simp only [getElem?_updateAt_self, List.getElem?_eq_getElem h, Option.map_some']
  by_cases hm : t ∈ (w.page[el]).classList <;> simp [mem_tokensToggle, hm]

theorem hasClass_classListAdd (w : World) (el : Nat) (t : String)
    (h : el < w.page.length) :
    hasClass (classListAdd w el t) el t = true := by
  unfold hasClass classListAdd
  simp [getElem?_updateAt_self, List.getElem?_eq_getElem h, mem_tokensAdd]

theorem hasClass_classListRemove (w : World) (el : Nat) (t : String) :
    hasClass (classListRemove w el t) el t = false := by
  unfold hasClass classListRemove
  simp only [getElem?_updateAt_self]
  cases w.page[el]? with
  | none => rfl
  | some e => simp [not_mem_tokensRemove]

theorem classListAdd_page_of_hasClass (w : World) (el : Nat) (t : String)
    (h : hasClass w el t = true) : (classListAdd w el t).page = w.page := by
  unfold classListAdd
  apply updateAt_id_of_fix
  intro e he
  have : t ∈ e.classList := by simpa [hasClass, he] using h
  simp [tokensAdd_of_mem this]

/-- One toggle flips the hidden marker of the dialog with the given id. -/
theorem toggle_once_marker (id : String) (w : World) :
    hiddenMarker
      (match getElementById w id with
        | some el => classListToggle w el "hidden"
        | none => w) id
      = (hiddenMarker w id).map (fun b => !b) := by
  cases h : getElementById w id with
  | none => simp [hiddenMarker, h]
  | some el =>
    simp only [getElementById_classListToggle, h, hiddenMarker, Option.map_some']
    rw [hasClass_classListToggle _ _ _ (getElementById_lt h)]

/-- Toggling the hidden marker of the dialog with a given id twice, in the form
the three toggle functions unfold to. -/

theorem toggle_twice_marker (id : String) (w : World) :
    hiddenMarker
      (match getElementById
          (match getElementById w id with
            | some el => classListToggle w el "hidden"
            | none => w) id with
        | some el =>
          classListToggle
            (match getElementById w id with
              | some el => classListToggle w el "hidden"
              | none => w) el "hidden"
        | none =>
          (match getElementById w id with
            | some el => classListToggle w el "hidden"
            | none => w)) id
      = hiddenMarker w id := by
  cases h : getElementById w id with
  | none => simp [hiddenMarker, h]
  | some el =>
    have hlt := getElementById_lt h
    have hlt2 : el < (classListToggle w el "hidden").page.length := by
      simpa [classListToggle, length_updateAt] using hlt
    simp only [getElementById_classListToggle, h, hiddenMarker, Option.map_some']
    rw [hasClass_classListToggle _ _ _ hlt2, hasClass_classListToggle _ _ _ hlt]
    simp

theorem hiddenMarker_closeRoast (w : World) :
    hiddenMarker (closeRoast w) "roastModal"
      = (getElementById w "roastModal").map (fun _ => true) := by
  unfold closeRoast
  cases h : getElementById w "roastModal" with
  | none => simp [hiddenMarker, h]
  | some el =>
    simp [hiddenMarker, getElementById_classListAdd, h,
      hasClass_classListAdd _ _ _ (getElementById_lt h)]

theorem closeRoast_page_of_not_visible (w : World)
    (h : hiddenMarker w "roastModal" ≠ some false) : (closeRoast w).page = w.page := by
  unfold closeRoast
  cases hg : getElementById w "roastModal" with
  | none => rfl
  | some el =>
    apply classListAdd_page_of_hasClass
    simpa [hiddenMarker, hg] using h

theorem iterate_closeRoast_page (w : World) (n : Nat) :
    (Nat.iterate closeRoast (n + 1) w).page = (closeRoast w).page := by
  induction n with
  | zero => rfl
  | succ n ih =>
    rw [Function.iterate_succ_apply', closeRoast_page_of_not_visible _ _, ih]
    rw [Function.iterate_succ_apply', hiddenMarker_closeRoast]
    cases getElementById (Nat.iterate closeRoast n w) "roastModal" <;> simp

theorem hiddenMarker_congr {w w' : World} (h : w.page = w'.page) (id : String) :
    hiddenMarker w id = hiddenMarker w' id := by
  simp [hiddenMarker, getElementById, hasClass, h]

theorem hasClass_setInnerText (w : World) (el : Nat) (s : String) (m : Nat) (t : String) :
    hasClass (setInnerText w el s) m t = hasClass w m t := by
  unfold hasClass setInnerText
  by_cases hme : m = el
  · subst hme
    simp only [getElem?_updateAt_self]
    cases w.page[m]? <;> rfl
  · simp only [getElem?_updateAt_ne _ hme]

theorem length_page_setInnerText (w : World) (el : Nat) (s : String) :
    (setInnerText w el s).page.length = w.page.length :=
  length_updateAt _ _ _

theorem length_page_classListRemove (w : World) (el : Nat) (t : String) :
    (classListRemove w el t).page.length = w.page.length :=
  length_updateAt _ _ _

theorem displayedText_setInnerText (w : World) (el : Nat) (s : String)
    (h : el < w.page.length) : displayedText (setInnerText w el s) el = some s := by
  unfold displayedText setInnerText
  simp [getElem?_updateAt_self, List.getElem?_eq_getElem h]

theorem length_page_fetch (w : World) (url : String) :
    (fetch w url).page.length = w.page.length := rfl

theorem length_page_consoleError (w : World) (l : String) (e : JsError) :
    (consoleError w l e).page.length = w.page.length := rfl

theorem getRoastTry_rejected_iff (net : Settled Response) (el : Nat) (w : World) (e : JsError) :
    (getRoastTry net (some el) w).completion = Settled.rejected e ↔
      (net = Settled.rejected e ∨
        (∃ status, net = Settled.fulfilled ⟨status, Settled.rejected e⟩) ∨
        (∃ status data, net = Settled.fulfilled ⟨status, Settled.fulfilled data⟩ ∧
          roastLiteral data = Except.error e)) := by
  unfold getRoastTry
  cases net with
  | pending => simp
  | rejected e' => simp
  | fulfilled response =>
    obtain ⟨status, json⟩ := response
    cases json with
    | pending => simp
    | rejected e' => simp
    | fulfilled data =>
      cases hr : roastLiteral data with
      | error e' =>
        simp only [hr, Settled.rejected.injEq]
        constructor
        · intro h
          exact Or.inr (Or.inr ⟨status, data, rfl, by rw [hr, h]⟩)
        · rintro (h | ⟨_, h⟩ | ⟨_, _, h, h2⟩)
          · cases h
          · cases h
          · cases h
            rw [hr] at h2
            exact Except.error.inj h2
      | ok s => simp [hr]

theorem hasClass_fetch (w : World) (url : String) (m : Nat) (t : String) :
    hasClass (fetch w url) m t = hasClass w m t := rfl

theorem hasClass_consoleError (w : World) (l : String) (e : JsError) (m : Nat) (t : String) :
    hasClass (consoleError w l e) m t = hasClass w m t := rfl

theorem canvasOf_setCtx_self (f : Canvas → Canvas) (w : World) (ctx : Nat) :
    canvasOf (setCtx f w ctx) ctx = (canvasOf w ctx).map f := by
  unfold canvasOf setCtx
  simp only [getElem?_updateAt_self]
  cases w.page[ctx]? <;> rfl

theorem log_setCtx (f : Canvas → Canvas) (w : World) (ctx : Nat) :
    (setCtx f w ctx).log = w.log := rfl

theorem chartsIn_append (l₁ l₂ : List Effect) :
    chartsIn (l₁ ++ l₂) = chartsIn l₁ ++ chartsIn l₂ := by
  induction l₁ with
  | nil => rfl
  | cons e es ih => cases e <;> simp [chartsIn, ih]

theorem drawsIn_append (l₁ l₂ : List Effect) :
    drawsIn (l₁ ++ l₂) = drawsIn l₁ ++ drawsIn l₂ := by
  induction l₁ with
  | nil => rfl
  | cons e es ih => cases e <;> simp [drawsIn, ih]

/-- Whenever the `try` block of `getRoast` throws, the fallback sentence is
displayed and the promise of `getRoast` is fulfilled. -/
theorem getRoast_of_try_throws (w : World) (el : Nat) (net : Settled Response) (e : JsError)
    (ht : getElementById w "roastText" = some el)
    (hthrow : net = Settled.rejected e ∨
        (∃ status, net = Settled.fulfilled ⟨status, Settled.rejected e⟩) ∨
        (∃ status data, net = Settled.fulfilled ⟨status, Settled.fulfilled data⟩ ∧
          roastLiteral data = Except.error e)) :
    displayedText (getRoast net w).world el = some fallbackText ∧
    (getRoast net w).completion = Settled.fulfilled () := by
  have hlt := getElementById_lt ht
  have hlen : (match getElementById w "roastModal" with
      | some m => classListRemove w m "hidden"
      | none => w).page.length = w.page.length := by
    cases getElementById w "roastModal" with
    | none => rfl
    | some m => rw [length_page_classListRemove]
  have hfin : ∀ w0 : World, w0.page.length = w.page.length →
      displayedText (setInnerText (consoleError (fetch w0 "/roast_me") "Roast Error:" e) el
        fallbackText) el = some fallbackText := by
    intro w0 h0
    apply displayedText_setInnerText
    rw [length_page_consoleError, length_page_fetch, h0]
    exact hlt
  rcases hthrow with h | ⟨status, h⟩ | ⟨status, data, h, hr⟩
  · subst h
    simp only [getRoast, getRoastTry, ht, and_true]
    exact hfin _ (by rw [length_page_setInnerText]; exact hlen)
  · subst h
    simp only [getRoast, getRoastTry, ht, and_true]
    exact hfin _ (by rw [length_page_setInnerText]; exact hlen)
  · subst h
    simp only [getRoast, getRoastTry, ht, hr, and_true]
    exact hfin _ (by rw [length_page_setInnerText]; exact hlen)

/-! ## Properties of the script -/

/-- Claim C1: when the request completes and its body parses to an object whose
`roast` field is the string `x`, and the `roastText` element exists, the text
displayed when `getRoast` finishes is a double quote, then `x`, then a double
quote, and `getRoast` completes. -/
theorem getRoast_displays_quoted_roast (w : World) (el status : Nat) (fields : JsFields)
    (x : String)
    (ht : getElementById w "roastText" = some el)
    (hx : fields.get "roast" = some (JsValue.str x)) :
    displayedText
        (getRoast (Settled.fulfilled ⟨status, Settled.fulfilled (JsValue.obj fields)⟩) w).world el
      = some ("\"" ++ x ++ "\"") ∧
    (getRoast (Settled.fulfilled ⟨status, Settled.fulfilled (JsValue.obj fields)⟩) w).completion
      = Settled.fulfilled () := by
  have hlt := getElementById_lt ht
  simp only [getRoast, getRoastTry, ht, roastLiteral, getRoastField, hx, toStringJs, and_true]
  apply displayedText_setInnerText
  rw [length_page_fetch, length_page_setInnerText]
  cases getElementById w "roastModal" with
  | none => exact hlt
  | some m => rw [length_page_classListRemove]; exact hlt

/-- The body `{"roast": "x"}` on the sample page gives the displayed text `"x"`,
quotes included. -/
theorem getRoast_displays_quoted_roast_witness :
    getElementById sampleWorld "roastText" = some 4 ∧
    (JsFields.cons "roast" (JsValue.str "x") JsFields.nil).get "roast" = some (JsValue.str "x") ∧
    displayedText
        (getRoast (Settled.fulfilled ⟨200, Settled.fulfilled
          (JsValue.obj (JsFields.cons "roast" (JsValue.str "x") JsFields.nil))⟩) sampleWorld).world 4
      = some ("\"" ++ "x" ++ "\"") ∧
    (getRoast (Settled.fulfilled ⟨200, Settled.fulfilled
        (JsValue.obj (JsFields.cons "roast" (JsValue.str "x") JsFields.nil))⟩) sampleWorld).completion
      = Settled.fulfilled () :=
  ⟨by decide, rfl,
    getRoast_displays_quoted_roast sampleWorld 4 200
      (JsFields.cons "roast" (JsValue.str "x") JsFields.nil) "x" (by decide) rfl⟩

/-- Claim C2: when the fetch rejects, or parsing the body throws, or evaluating
the quoted roast throws, and the `roastText` element exists, the text displayed
when `getRoast` finishes is the fallback sentence and `getRoast` completes
without raising. -/
theorem getRoast_failure_shows_fallback (w : World) (el : Nat) (net : Settled Response)
    (e : JsError)
    (ht : getElementById w "roastText" = some el)
    (hthrow : net = Settled.rejected e ∨
        (∃ status, net = Settled.fulfilled ⟨status, Settled.rejected e⟩) ∨
        (∃ status data, net = Settled.fulfilled ⟨status, Settled.fulfilled data⟩ ∧
          roastLiteral data = Except.error e)) :
    displayedText (getRoast net w).world el = some "Even the AI is speechless at your spending." ∧
    (getRoast net w).completion = Settled.fulfilled () :=
  getRoast_of_try_throws w el net e ht hthrow

/-- A rejected fetch on the sample page ends with the fallback sentence. -/
theorem getRoast_failure_shows_fallback_witness :
    getElementById sampleWorld "roastText" = some 4 ∧
    displayedText (getRoast (Settled.rejected ⟨"TypeError", "Failed to fetch"⟩) sampleWorld).world 4
      = some "Even the AI is speechless at your spending." ∧
    (getRoast (Settled.rejected ⟨"TypeError", "Failed to fetch"⟩) sampleWorld).completion
      = Settled.fulfilled () :=
  ⟨by decide,
    getRoast_failure_shows_fallback sampleWorld 4 (Settled.rejected ⟨"TypeError", "Failed to fetch"⟩)
      ⟨"TypeError", "Failed to fetch"⟩ (by decide) (Or.inl rfl)⟩

/-- Claim C3, as stated, fails: a response with status 500 whose body parses to
an object with `roast` field `x` ends with the quoted roast displayed, not with
the fallback sentence. -/
theorem getRoast_non2xx_not_failure :
    displayedText
        (getRoast (Settled.fulfilled ⟨500, Settled.fulfilled
          (JsValue.obj (JsFields.cons "roast" (JsValue.str "x") JsFields.nil))⟩) sampleWorld).world 4
      = some "\"x\"" ∧
    ¬ (∀ (w : World) (el : Nat) (response : Response),
        getElementById w "roastText" = some el →
        (¬ (200 ≤ response.status ∧ response.status < 300) ∨
          ∃ e, response.json = Settled.rejected e) →
        displayedText (getRoast (Settled.fulfilled response) w).world el = some fallbackText) := by
  refine ⟨by decide, ?_⟩
  intro h
  have h1 := h sampleWorld 4
    ⟨500, Settled.fulfilled (JsValue.obj (JsFields.cons "roast" (JsValue.str "x") JsFields.nil))⟩
    (by decide) (Or.inl (by decide))
  revert h1
  decide

/-- Claim C3, amended: a malformed body (parsing it throws) ends with the
fallback sentence displayed whatever the status, and the status is never
inspected: two responses that differ only in status give the same run. -/
theorem getRoast_malformed_body_any_status (w : World) (el status : Nat) (e : JsError)
    (ht : getElementById w "roastText" = some el) :
    displayedText (getRoast (Settled.fulfilled ⟨status, Settled.rejected e⟩) w).world el
      = some fallbackText ∧
    ∀ (status' : Nat) (json : Settled JsValue),
      getRoast (Settled.fulfilled ⟨status', json⟩) w
        = getRoast (Settled.fulfilled ⟨status, json⟩) w :=
  ⟨(getRoast_of_try_throws w el _ e ht (Or.inr (Or.inl ⟨status, rfl⟩))).1, fun _ _ => rfl⟩

/-- A status 502 response with an unparsable body on the sample page. -/
theorem getRoast_malformed_body_any_status_witness :
    getElementById sampleWorld "roastText" = some 4 ∧
    displayedText (getRoast (Settled.fulfilled ⟨502, Settled.rejected
        ⟨"SyntaxError", "Unexpected token < in JSON at position 0"⟩⟩) sampleWorld).world 4
      = some fallbackText ∧
    ∀ (status' : Nat) (json : Settled JsValue),
      getRoast (Settled.fulfilled ⟨status', json⟩) sampleWorld
        = getRoast (Settled.fulfilled ⟨502, json⟩) sampleWorld :=
  ⟨by decide,
    getRoast_malformed_body_any_status sampleWorld 4 502
      ⟨"SyntaxError", "Unexpected token < in JSON at position 0"⟩ (by decide)⟩

/-- Claim C4: for non-empty labels and any data, on a page with the
`expenseChart` canvas, `initChart` constructs exactly one chart, of kind
doughnut, whose single series carries data and labels verbatim and whose
colours are the fixed palette in order, and it draws no text. -/
theorem initChart_constructs_doughnut (labels : List String) (data : List ℚ) (w : World)
    (el : Nat) (c : Canvas)
    (hel : getElementById w "expenseChart" = some el)
    (hc : canvasOf w el = some c)
    (hne : labels ≠ []) :
    ∃ w' config, initChart (some labels) data w = Except.ok w' ∧
      w'.page = w.page ∧
      w'.log = w.log ++ [Effect.newChart el config] ∧
      chartsIn w'.log = chartsIn w.log ++ [config] ∧
      drawsIn w'.log = drawsIn w.log ∧
      config.type = "doughnut" ∧
      config.labels = labels ∧
      config.datasets.map Dataset.data = [data] ∧
      config.datasets.map Dataset.backgroundColor
        = [["#06b6d4", "#8b5cf6", "#ec4899", "#f59e0b", "#10b981", "#3b82f6"]] ∧
      ∀ i, segmentColour config i
        = ["#06b6d4", "#8b5cf6", "#ec4899", "#f59e0b", "#10b981", "#3b82f6"][i % 6]? := by
  have hg : labelsGiven (some labels) = true := by
    cases labels with
    | nil => exact absurd rfl hne
    | cons l ls => simp [labelsGiven]
  refine ⟨newChart w el (chartConfig labels data), chartConfig labels data, ?_, rfl, rfl, ?_, ?_,
    rfl, rfl, rfl, rfl, fun i => rfl⟩
  · simp [initChart, hel, getContext, hc, hg]
  · simp [newChart, chartsIn_append, chartsIn]
  · simp [newChart, drawsIn_append, drawsIn]

/-- The call `initChart(["Food","Rent"], [50,150])` on the sample page. -/
theorem initChart_constructs_doughnut_witness :
    getElementById sampleWorld "expenseChart" = some 5 ∧
    canvasOf sampleWorld 5 = some ⟨300, 150, "10px sans-serif", "#000000", "start"⟩ ∧
    ∃ w' config, initChart (some ["Food", "Rent"]) [50, 150] sampleWorld = Except.ok w' ∧
      w'.page = sampleWorld.page ∧
      w'.log = sampleWorld.log ++ [Effect.newChart 5 config] ∧
      chartsIn w'.log = chartsIn sampleWorld.log ++ [config] ∧
      drawsIn w'.log = drawsIn sampleWorld.log ∧
      config.type = "doughnut" ∧
      config.labels = ["Food", "Rent"] ∧
      config.datasets.map Dataset.data = [[50, 150]] ∧
      config.datasets.map Dataset.backgroundColor
        = [["#06b6d4", "#8b5cf6", "#ec4899", "#f59e0b", "#10b981", "#3b82f6"]] ∧
      ∀ i, segmentColour config i
        = ["#06b6d4", "#8b5cf6", "#ec4899", "#f59e0b", "#10b981", "#3b82f6"][i % 6]? :=
  ⟨by decide, by decide,
    initChart_constructs_doughnut ["Food", "Rent"] [50, 150] sampleWorld 5
      ⟨300, 150, "10px sans-serif", "#000000", "start"⟩ (by decide) (by decide) (by decide)⟩

/-- Claim C5: when labels is absent or empty, whatever the data, on a page with
the `expenseChart` canvas, `initChart` constructs no chart and issues exactly
one text draw of "No expenses logged" at half the canvas width and height, with
font "14px Outfit", fill colour #64748b and centred alignment. -/
theorem initChart_draws_placeholder (labels : Option (List String)) (data : List ℚ) (w : World)
    (el : Nat) (c : Canvas)
    (hel : getElementById w "expenseChart" = some el)
    (hc : canvasOf w el = some c)
    (hl : labels = none ∨ labels = some []) :
    ∃ w', initChart labels data w = Except.ok w' ∧
      w'.log = w.log ++ [Effect.fillText el "No expenses logged"
        ((c.width : ℚ) / 2) ((c.height : ℚ) / 2) "14px Outfit" "#64748b" "center"] ∧
      chartsIn w'.log = chartsIn w.log := by
  have hg : labelsGiven labels = false := by
    rcases hl with h | h <;> subst h <;> rfl
  have hlog : ∀ w' : World, w'.log = w.log ++ [Effect.fillText el "No expenses logged"
        ((c.width : ℚ) / 2) ((c.height : ℚ) / 2) "14px Outfit" "#64748b" "center"] →
      chartsIn w'.log = chartsIn w.log := by
    intro w' h
    rw [h, chartsIn_append]
    simp [chartsIn]
  simp only [initChart, hel, getContext, hc, hg]
  refine ⟨_, rfl, ?_, ?_⟩
  · simp [fillText, canvasWidth, canvasHeight, canvasOf_setCtx_self, hc, log_setCtx]
  · apply hlog
    simp [fillText, canvasWidth, canvasHeight, canvasOf_setCtx_self, hc, log_setCtx]

/-- The call `initChart([], [])` on the sample page, whose canvas is 300 by 150. -/
theorem initChart_draws_placeholder_witness :
    getElementById sampleWorld "expenseChart" = some 5 ∧
    canvasOf sampleWorld 5 = some ⟨300, 150, "10px sans-serif", "#000000", "start"⟩ ∧
    ∃ w', initChart (some []) [] sampleWorld = Except.ok w' ∧
      w'.log = sampleWorld.log ++ [Effect.fillText 5 "No expenses logged"
        (((300 : Nat) : ℚ) / 2) (((150 : Nat) : ℚ) / 2) "14px Outfit" "#64748b" "center"] ∧
      chartsIn w'.log = chartsIn sampleWorld.log :=
  ⟨by decide, by decide,
    initChart_draws_placeholder (some []) [] sampleWorld 5
      ⟨300, 150, "10px sans-serif", "#000000", "start"⟩ (by decide) (by decide) (Or.inr rfl)⟩

/-- Claim C6: on a page with no `expenseChart` element, `initChart` returns
without raising and leaves the world (page and effect log) unchanged: no chart
is constructed and nothing is drawn. -/
theorem initChart_without_canvas (labels : Option (List String)) (data : List ℚ) (w : World)
    (h : getElementById w "expenseChart" = none) :
    initChart labels data w = Except.ok w := by
  simp [initChart, h]

/-- The call `initChart(["Food"], [50])` on a page without a canvas. -/
theorem initChart_without_canvas_witness :
    getElementById bareWorld "expenseChart" = none ∧
    initChart (some ["Food"]) [50] bareWorld = Except.ok bareWorld :=
  ⟨by decide, initChart_without_canvas (some ["Food"]) [50] bareWorld (by decide)⟩

/-- Claim C7: for each of the three toggle operations and every page state,
calling the operation twice leaves the hidden marker of its dialog present
exactly when it was present before. -/
theorem toggle_twice_restores_visibility (w : World) :
    hiddenMarker (toggleModal (toggleModal w)) "transactionModal"
      = hiddenMarker w "transactionModal" ∧
    hiddenMarker (toggleGoalModal (toggleGoalModal w)) "goalModal"
      = hiddenMarker w "goalModal" ∧
    hiddenMarker (toggleSubModal (toggleSubModal w)) "subModal"
      = hiddenMarker w "subModal" :=
  ⟨toggle_twice_marker "transactionModal" w, toggle_twice_marker "goalModal" w,
    toggle_twice_marker "subModal" w⟩

/-- Claim C8: when the `roastModal` element exists, after `closeRoast` the dialog
carries the hidden marker whatever its state before; a hidden dialog is left
as it was, and any number of repeated calls gives the same page as one call. -/
theorem closeRoast_forces_hidden (w : World) (el : Nat)
    (h : getElementById w "roastModal" = some el) :
    hiddenMarker (closeRoast w) "roastModal" = some true ∧
    (hiddenMarker w "roastModal" = some true → (closeRoast w).page = w.page) ∧
    ∀ n : Nat,
      (Nat.iterate closeRoast (n + 1) w).page = (closeRoast w).page ∧
      hiddenMarker (Nat.iterate closeRoast (n + 1) w) "roastModal" = some true := by
  have h1 : hiddenMarker (closeRoast w) "roastModal" = some true := by
    rw [hiddenMarker_closeRoast, h]
    rfl
  refine ⟨h1, ?_, ?_⟩
  · intro hh
    apply closeRoast_page_of_not_visible
    rw [hh]
    simp
  · intro n
    refine ⟨iterate_closeRoast_page w n, ?_⟩
    rw [hiddenMarker_congr (iterate_closeRoast_page w n)]
    exact h1

/-- On the sample page the roast dialog is hidden by `closeRoast` and stays so. -/
theorem closeRoast_forces_hidden_witness :
    getElementById sampleWorld "roastModal" = some 3 ∧
    hiddenMarker (closeRoast sampleWorld) "roastModal" = some true ∧
    (hiddenMarker sampleWorld "roastModal" = some true →
      (closeRoast sampleWorld).page = sampleWorld.page) ∧
    ∀ n : Nat,
      (Nat.iterate closeRoast (n + 1) sampleWorld).page = (closeRoast sampleWorld).page ∧
      hiddenMarker (Nat.iterate closeRoast (n + 1) sampleWorld) "roastModal" = some true :=
  ⟨by decide, closeRoast_forces_hidden sampleWorld 3 (by decide)⟩

/-- Claim C9: with the `roastModal` and `roastText` elements present, one
`getRoast` invocation first removes the hidden marker from the roast dialog,
then sets the message to the loading placeholder, then issues one request to
`/roast_me`; whatever follows (nothing, the result text, or the logged error and
the fallback text) comes after that request and contains no further request,
and the dialog ends without the hidden marker. -/
theorem getRoast_effect_order (w : World) (modal text : Nat) (net : Settled Response)
    (hm : getElementById w "roastModal" = some modal)
    (ht : getElementById w "roastText" = some text) :
    ∃ rest : List Effect,
      (getRoast net w).world.log
        = w.log ++ [Effect.classListRemove modal "hidden",
            Effect.setInnerText text "Consulting the Council of High Finance...",
            Effect.fetch "/roast_me"] ++ rest ∧
      requestsIn rest = [] ∧
      (rest = [] ∨ (∃ s, rest = [Effect.setInnerText text s]) ∨
        ∃ e, rest = [Effect.consoleError "Roast Error:" e,
          Effect.setInnerText text fallbackText]) ∧
      hasClass (getRoast net w).world modal "hidden" = false := by
  have hc : ∀ s, hasClass (fetch (setInnerText (classListRemove w modal "hidden") text s)
      "/roast_me") modal "hidden" = false := by
    intro s
    rw [hasClass_fetch, hasClass_setInnerText, hasClass_classListRemove]
  cases net with
  | pending =>
    refine ⟨[], ?_, rfl, Or.inl rfl, ?_⟩
    · simp [getRoast, getRoastTry, hm, ht, loadingText, classListRemove, setInnerText, fetch]
    · simp only [getRoast, getRoastTry, hm, ht]
      exact hc _
  | rejected e =>
    refine ⟨[Effect.consoleError "Roast Error:" e, Effect.setInnerText text fallbackText],
      ?_, rfl, Or.inr (Or.inr ⟨e, rfl⟩), ?_⟩
    · simp [getRoast, getRoastTry, hm, ht, loadingText, classListRemove, setInnerText, fetch, consoleError]
    · simp only [getRoast, getRoastTry, hm, ht]
      rw [hasClass_setInnerText, hasClass_consoleError]
      exact hc _
  | fulfilled response =>
    obtain ⟨status, json⟩ := response
    cases json with
    | pending =>
      refine ⟨[], ?_, rfl, Or.inl rfl, ?_⟩
      · simp [getRoast, getRoastTry, hm, ht, loadingText, classListRemove, setInnerText, fetch]
      · simp only [getRoast, getRoastTry, hm, ht]
        exact hc _
    | rejected e =>
      refine ⟨[Effect.consoleError "Roast Error:" e, Effect.setInnerText text fallbackText],
        ?_, rfl, Or.inr (Or.inr ⟨e, rfl⟩), ?_⟩
      · simp [getRoast, getRoastTry, hm, ht, loadingText, classListRemove, setInnerText, fetch, consoleError]
      · simp only [getRoast, getRoastTry, hm, ht]
        rw [hasClass_setInnerText, hasClass_consoleError]
        exact hc _
    | fulfilled data =>
      cases hr : roastLiteral data with
      | error e =>
        refine ⟨[Effect.consoleError "Roast Error:" e, Effect.setInnerText text fallbackText],
          ?_, rfl, Or.inr (Or.inr ⟨e, rfl⟩), ?_⟩
        · simp [getRoast, getRoastTry, hm, ht, hr, loadingText, classListRemove, setInnerText, fetch,
            consoleError]
        · simp only [getRoast, getRoastTry, hm, ht, hr]
          rw [hasClass_setInnerText, hasClass_consoleError]
          exact hc _
      | ok s =>
        refine ⟨[Effect.setInnerText text s], ?_, rfl, Or.inr (Or.inl ⟨s, rfl⟩), ?_⟩
        · simp [getRoast, getRoastTry, hm, ht, hr, loadingText, classListRemove, setInnerText, fetch]
        · simp only [getRoast, getRoastTry, hm, ht, hr]
          rw [hasClass_setInnerText]
          exact hc _

/-- One invocation on the sample page, where the roast dialog starts hidden. -/
theorem getRoast_effect_order_witness :
    getElementById sampleWorld "roastModal" = some 3 ∧
    getElementById sampleWorld "roastText" = some 4 ∧
    ∃ rest : List Effect,
      (getRoast (Settled.fulfilled ⟨200, Settled.fulfilled
          (JsValue.obj (JsFields.cons "roast" (JsValue.str "x") JsFields.nil))⟩) sampleWorld).world.log
        = sampleWorld.log ++ [Effect.classListRemove 3 "hidden",
            Effect.setInnerText 4 "Consulting the Council of High Finance...",
            Effect.fetch "/roast_me"] ++ rest ∧
      requestsIn rest = [] ∧
      (rest = [] ∨ (∃ s, rest = [Effect.setInnerText 4 s]) ∨
        ∃ e, rest = [Effect.consoleError "Roast Error:" e,
          Effect.setInnerText 4 fallbackText]) ∧
      hasClass (getRoast (Settled.fulfilled ⟨200, Settled.fulfilled
          (JsValue.obj (JsFields.cons "roast" (JsValue.str "x") JsFields.nil))⟩) sampleWorld).world
        3 "hidden" = false :=
  ⟨by decide, by decide,
    getRoast_effect_order sampleWorld 3 4 (Settled.fulfilled ⟨200, Settled.fulfilled
      (JsValue.obj (JsFields.cons "roast" (JsValue.str "x") JsFields.nil))⟩) (by decide) (by decide)⟩

/-- Claim C10: for each of `toggleModal`, `toggleGoalModal`, `toggleSubModal` and
`closeRoast`, when the dialog element of the operation is absent the call
returns the world it was given: no error, no effect, every class list as it
was. -/
theorem absent_dialog_is_noop (w : World) :
    (getElementById w "transactionModal" = none → toggleModal w = w) ∧
    (getElementById w "goalModal" = none → toggleGoalModal w = w) ∧
    (getElementById w "subModal" = none → toggleSubModal w = w) ∧
    (getElementById w "roastModal" = none → closeRoast w = w) := by
  refine ⟨fun h => ?_, fun h => ?_, fun h => ?_, fun h => ?_⟩
  · simp [toggleModal, h]
  · simp [toggleGoalModal, h]
  · simp [toggleSubModal, h]
  · simp [closeRoast, h]

/-- The four operations on a page that has none of the dialogs. -/
theorem absent_dialog_is_noop_witness :
    (getElementById bareWorld "transactionModal" = none ∧ toggleModal bareWorld = bareWorld) ∧
    (getElementById bareWorld "goalModal" = none ∧ toggleGoalModal bareWorld = bareWorld) ∧
    (getElementById bareWorld "subModal" = none ∧ toggleSubModal bareWorld = bareWorld) ∧
    (getElementById bareWorld "roastModal" = none ∧ closeRoast bareWorld = bareWorld) :=
  ⟨⟨by decide, (absent_dialog_is_noop bareWorld).1 (by decide)⟩,
    ⟨by decide, (absent_dialog_is_noop bareWorld).2.1 (by decide)⟩,
    ⟨by decide, (absent_dialog_is_noop bareWorld).2.2.1 (by decide)⟩,
    ⟨by decide, (absent_dialog_is_noop bareWorld).2.2.2 (by decide)⟩⟩

end Flux
